import Mathlib

/-!
Shallow embedding of the bitboard core of the scrubble repository.

The repository has two bitboard backends:

* the scalar backend in src/bitboard/mod.rs, storing `rows: [u16; 16]`,
  with single-step shift operations (right_one, left_one, up_one, down_one),
  lane-wise boolean operators implemented through compound assignment over
  lanes 0..14, an invert that masks with ROW_MAX, equality that compares the
  first 15 lanes masked with ROW_MAX, and a constructor new_raw that masks
  with FULL and then asserts that lane 15 is zero;
* the AVX2 backend in game/src/bitboard/avx2.rs, storing an m256i of 16
  u16 lanes, with parameterized shifts right/left/up/down, where right is a
  uniform 16-bit shift-left followed by an AND with FULL, left is the
  arithmetic 16-bit shift-right instruction, up/down rotate the lane array
  and zero the vacated lanes plus lane 15, and equality XORs the two values
  and compares all 256 bits with the empty value.

Lanes are embedded as functions from Fin 16 to natural numbers; each lane is
a u16 value, so arithmetic that can overflow carries an explicit mod 65536,
and the bit-15 mask 0x7FFF is the literal 32767.  Operations that can panic
in Rust (the assert in the scalar new_raw, the usize underflow in
Coordinate::as_idx under the default debug profile, and the slice rotation /
index arithmetic in the AVX2 up and down for large shift amounts) are
embedded as Option-returning functions, with none standing for the panic.
-/

namespace Scrubble

/-- Lane storage: 16 lanes of a u16 each, the form both backends share. -/
abbrev Lanes := Fin 16 → ℕ

/-- Embeds `const ROW_MAX: u16 = 0x7FFF`, identical in both backends. -/
def ROW_MAX : ℕ := 32767

/-- Embeds `EMPTY` / `empty()`: all 16 lanes zero, identical in both backends. -/
def EMPTY : Lanes := fun _ => 0

/-- Embeds `FULL` / `full()`: ROW_MAX in lanes 0..14, zero in lane 15,
identical literal in both backends. -/
def FULL : Lanes := fun i => if i.val < 15 then ROW_MAX else 0

/-- Population count of one u16 lane, embedding `u16::count_ones` for
values below 2 ^ 16. -/
def countOnes16 (v : ℕ) : ℕ := (List.range 16).countP (fun j => v.testBit j)

/-- The padding invariant of the data model: every lane is a u16 with bit 15
clear (value below 2 ^ 15), and lane 15 is zero. -/
def Invariant (b : Lanes) : Prop := (∀ i : Fin 16, b i < 32768) ∧ b 15 = 0

instance (b : Lanes) : Decidable (Invariant b) := by
  unfold Invariant; infer_instance

/-- Spec notion for equality claims: the real (non-padding) bits of the two
values are identical, that is, lanes 0..14 agree after masking to the low
15 bits. -/
def specRealBitsEq (a b : Lanes) : Prop :=
  ∀ i : Fin 16, i.val < 15 → a i &&& ROW_MAX = b i &&& ROW_MAX

instance (a b : Lanes) : Decidable (specRealBitsEq a b) := by
  unfold specRealBitsEq; infer_instance

/-- Embeds `count_ones`: the fold summing `count_ones` of every one of the
16 lanes.  Both backends use this identical computation (the scalar backend
folds over `row_iter()` which takes all 16 rows, the AVX2 backend extracts
the `[u16; 16]` array and folds over it). -/
def count_ones (b : Lanes) : ℕ :=
  (List.finRange 16).foldl (fun acc i => acc + countOnes16 (b i)) 0

namespace Scalar

/-- Embeds the scalar `BitAndAssign`: `row_iter_mut()` takes lanes 0..14
only, so lane 15 of the receiver is left unchanged. -/
def bitand_assign (a b : Lanes) : Lanes :=
  fun i => if i.val < 15 then a i &&& b i else a i

/-- Embeds the scalar `BitOrAssign`: lanes 0..14 only, lane 15 unchanged. -/
def bitor_assign (a b : Lanes) : Lanes :=
  fun i => if i.val < 15 then a i ||| b i else a i

/-- Embeds the scalar `BitXorAssign`: lanes 0..14 only, lane 15 unchanged. -/
def bitxor_assign (a b : Lanes) : Lanes :=
  fun i => if i.val < 15 then a i ^^^ b i else a i

/-- Embeds the scalar `Bitboard::new_raw`: `s &= Self::FULL` masks lanes
0..14 (the compound assignment never touches lane 15), then
`assert_eq!(s.rows[15], 0)` panics when the passed-in lane 15 was nonzero;
the panic is modelled as none. -/
def new_raw (rows : Lanes) : Option Lanes :=
  let s := bitand_assign rows FULL
  if s 15 = 0 then some s else none

/-- Embeds the scalar `invert` (used by `Not`): lanes 0..14 are replaced by
their u16 complement masked with ROW_MAX, lane 15 is untouched. -/
def invert (a : Lanes) : Lanes :=
  fun i => if i.val < 15 then ((a i ^^^ 65535) &&& ROW_MAX) else a i

/-- Embeds the scalar `right_one`: lanes 0..14 are shifted left by one as
u16 values (wrapping mod 2 ^ 16), then the result is ANDed with FULL, which
again only rewrites lanes 0..14. -/
def right_one (b : Lanes) : Lanes :=
  bitand_assign (fun i => if i.val < 15 then (b i <<< 1) % 65536 else b i) FULL

/-- Embeds the scalar `left_one`: lanes 0..14 are shifted right by one; no
normalization is applied. -/
def left_one (b : Lanes) : Lanes :=
  fun i => if i.val < 15 then b i >>> 1 else b i

/-- Embeds the scalar `up_one`: the descending copy loop moves each of lanes
0..14 one slot upward reading original values, then lanes 0 and 15 are
zeroed. -/
def up_one (b : Lanes) : Lanes :=
  fun i => if h : i.val = 0 ∨ i.val = 15 then 0 else b ⟨i.val - 1, by omega⟩

/-- Embeds the scalar `down_one`: the ascending copy loop moves each of
lanes 1..15 one slot downward reading original values; lane 15 is untouched. -/
def down_one (b : Lanes) : Lanes :=
  fun i => if h : i.val < 15 then b ⟨i.val + 1, by omega⟩ else b i

/-- Embeds the scalar `PartialEq`: the zipped row iterators are truncated to
15 pairs and each pair is compared after masking with ROW_MAX. -/
def beq (a b : Lanes) : Bool :=
  decide (∀ i : Fin 15, a i.castSucc &&& ROW_MAX = b i.castSucc &&& ROW_MAX)

end Scalar

namespace Avx2

/-- Embeds the AVX2 `new_raw`: `rows[15] = 0` and nothing else; in
particular bit 15 of lanes 0..14 is not cleared. -/
def new_raw (rows : Lanes) : Lanes :=
  fun i => if i.val = 15 then 0 else rows i

/-- Embeds `_mm256_sra_epi16` on one lane: arithmetic shift right of a u16
bit pattern interpreted as i16; a shift count of 16 or more fills the lane
with the sign bit. -/
def sra16 (v n : ℕ) : ℕ :=
  if 16 ≤ n then (if 32768 ≤ v then 65535 else 0)
  else (v >>> n) ||| (if 32768 ≤ v then 65536 - 2 ^ (16 - n) else 0)

/-- Embeds the AVX2 `right`: a uniform 16-bit shift-left of all 16 lanes
(`shl_all_u16_m256i`, zero for counts of 16 or more, matching wrapping
multiplication mod 2 ^ 16) followed by AND with `full().rows`. -/
def right (b : Lanes) (n : ℕ) : Lanes :=
  fun i => ((b i <<< n) % 65536) &&& FULL i

/-- Embeds the AVX2 `left`: `shr_all_i16_m256i`, the arithmetic 16-bit
shift right, applied to all 16 lanes. -/
def left (b : Lanes) (n : ℕ) : Lanes :=
  fun i => sra16 (b i) n

/-- Result lanes of the AVX2 `up` when it does not panic: rotate_right of
the 16 lanes by n, then lanes 0..n-1 and lane 15 are zeroed. -/
def upFn (b : Lanes) (n : ℕ) : Lanes :=
  fun i => if i.val = 15 ∨ i.val < n then 0
    else b ⟨(i.val + 16 - n) % 16, Nat.mod_lt _ (by omega)⟩

/-- Embeds the AVX2 `up`: `rotate_right(by)` panics for by above 16 (the
slice has length 16); the panic is modelled as none. -/
def up (b : Lanes) (n : ℕ) : Option Lanes :=
  if n ≤ 16 then some (upFn b n) else none

/-- Result lanes of the AVX2 `down` when it does not panic: rotate_left of
the 16 lanes by n, then lanes 15-n..14 and lane 15 are zeroed. -/
def downFn (b : Lanes) (n : ℕ) : Lanes :=
  fun i => if 15 - n ≤ i.val then 0
    else b ⟨(i.val + n) % 16, Nat.mod_lt _ (by omega)⟩

/-- Embeds the AVX2 `down`: the zeroing loop writes `rows[14 - i]` for i up
to by-1, so for by of 16 the index 14 - 15 underflows and panics, and for
by above 16 the rotation itself panics; both are modelled as none. -/
def down (b : Lanes) (n : ℕ) : Option Lanes :=
  if n < 16 then some (downFn b n) else none

/-- Embeds the AVX2 `BitXor`: lane-wise XOR of all 16 lanes (one 256-bit
XOR instruction). -/
def bxor (a b : Lanes) : Lanes := fun i => a i ^^^ b i

/-- Embeds the AVX2 `BitAnd`: lane-wise AND of all 16 lanes. -/
def band (a b : Lanes) : Lanes := fun i => a i &&& b i

/-- Embeds the AVX2 `BitOr`: lane-wise OR of all 16 lanes. -/
def bor (a b : Lanes) : Lanes := fun i => a i ||| b i

/-- Embeds the AVX2 `Not`: XOR with `full()`. -/
def bnot (b : Lanes) : Lanes := bxor b FULL

/-- Embeds the AVX2 `PartialEq`: `(*self ^ *other).rows == Self::empty().rows`,
a comparison of all 256 bits including the padding positions. -/
def beq (a b : Lanes) : Bool :=
  decide (∀ i : Fin 16, a i ^^^ b i = 0)

end Avx2

/-- Embeds the `Coordinate` newtype around a u8. -/
structure Coordinate where
  val : ℕ
deriving DecidableEq

/-- Embeds `Coordinate::new`: the guard is the literal source condition
`coord != 0 || coord <= 15`. -/
def Coordinate.new (coord : ℕ) : Option Coordinate :=
  if coord ≠ 0 ∨ coord ≤ 15 then some ⟨coord⟩ else none

/-- Embeds `Coordinate::as_idx`, which computes `self.0 as usize - 1`; for
the stored value 0 the usize subtraction underflows and panics under the
default debug profile, modelled as none. -/
def Coordinate.as_idx (c : Coordinate) : Option ℕ :=
  if c.val = 0 then none else some (c.val - 1)

/-- Embeds `Coordinate::from_idx`: the guard is `idx <= 15` and the index is
stored directly, without converting from zero-based to one-based. -/
def Coordinate.from_idx (idx : ℕ) : Option Coordinate :=
  if idx ≤ 15 then some ⟨idx⟩ else none

/-- Embeds `Location`: a row and a column coordinate. -/
structure Location where
  row : Coordinate
  column : Coordinate

/-- Embeds the scalar `Bitboard::from_location`: a zero array with one bit
set at the row index and column index, passed to new_raw; an out-of-range
row index would panic on the array write (and an out-of-range column count
on the shift), both modelled as none. -/
def Scalar.from_location (l : Location) : Option Lanes := do
  let r ← l.row.as_idx
  let c ← l.column.as_idx
  if r < 16 ∧ c < 16 then
    Scalar.new_raw (fun i => if i.val = r then (1 <<< c) % 65536 else 0)
  else none

/-- Spec notion for the count claim: the number of set cells, that is, the
number of pairs of a row lane 0..14 and a bit position 0..14 whose bit is
set. -/
def setCellCount (b : Lanes) : ℕ :=
  (List.finRange 16).foldl
    (fun acc i =>
      acc + if i.val < 15 then (List.range 15).countP (fun j => (b i).testBit j) else 0) 0

end Scrubble

namespace Scrubble

/-! Helper lemmas about the 15-bit mask and lane arithmetic. -/

lemma and_rowmax_eq_mod (x : ℕ) : x &&& ROW_MAX = x % 32768 := by
  have h := Nat.and_pow_two_sub_one_eq_mod x 15
  norm_num at h
  rw [ROW_MAX]
  exact h

lemma and_rowmax_of_lt {x : ℕ} (h : x < 32768) : x &&& ROW_MAX = x := by
  rw [and_rowmax_eq_mod]
  exact Nat.mod_eq_of_lt h

/-- Claim C1: in the AVX2 backend the padding invariant is not established
by the constructor: new_raw applied to a lane array whose lane 0 is 0x8000
returns a live value whose lane 0 still has bit 15 set, violating the
documented invariant that bit 15 of every lane is always zero. -/
theorem c1_avx2_padding_violated :
    Avx2.new_raw (fun i => if i.val = 0 then 32768 else 0) 0 = 32768 ∧
    (Avx2.new_raw (fun i => if i.val = 0 then 32768 else 0) 0).testBit 15 = true ∧
    ¬ Invariant (Avx2.new_raw (fun i => if i.val = 0 then 32768 else 0)) := by
  refine ⟨by decide, by decide, fun h => absurd (h.1 0) (by decide)⟩

/-- Claim C2: neither backend's new_raw clears all padding regardless of
input: the scalar new_raw panics (models as none) on the lane array
[0x7FFE; 16] that the crate's own right_one test passes to it, because the
compound AND with FULL never writes lane 15 and the assert then fails; and
the AVX2 new_raw leaves bit 15 of lane 0 set on input [0xFFFF; 16]. -/
theorem c2_new_raw_divergence :
    Scalar.new_raw (fun _ => 32766) = none ∧
    Avx2.new_raw (fun _ => 65535) 0 = 65535 := by
  constructor
  · decide
  · decide

/-- Claim C3: Coordinate::new never returns None: its guard
`coord != 0 || coord <= 15` is a tautology, so every u8 input, including 0
and 16..=255, constructs a coordinate. -/
theorem c3_new_is_tautology :
    Coordinate.new 0 = some ⟨0⟩ ∧ Coordinate.new 16 = some ⟨16⟩ ∧
    ∀ coord : ℕ, Coordinate.new coord = some ⟨coord⟩ := by
  refine ⟨by decide, by decide, fun coord => ?_⟩
  rw [Coordinate.new, if_pos]
  by_cases h : coord = 0
  · right
    omega
  · left
    exact h

/-- Claim C4: operations of the core do panic: the scalar new_raw asserts
on the lane array the crate's own test uses; the AVX2 up panics for shift
amount 17 and down for 16 (slice rotation and index underflow); and as_idx
on the constructible Coordinate(0) underflows. -/
theorem c4_operations_panic :
    Scalar.new_raw (fun _ => 32766) = none ∧
    Avx2.up FULL 17 = none ∧
    Avx2.down FULL 16 = none ∧
    Coordinate.as_idx ⟨0⟩ = none ∧
    Coordinate.new 0 = some ⟨0⟩ := by
  refine ⟨by decide, ?_, ?_, by decide, by decide⟩
  · rw [Avx2.up, if_neg (by omega)]
  · rw [Avx2.down, if_neg (by omega)]

/-- Claim C8: from_idx does not convert from zero-based to one-based: it
stores the index directly, so from_idx(5) yields the coordinate whose
as_idx is 4, breaking the round trip, and from_idx(0) yields Coordinate(0)
whose as_idx underflows. -/
theorem c8_from_idx_off_by_one :
    Coordinate.from_idx 5 = some ⟨5⟩ ∧
    Coordinate.as_idx ⟨5⟩ = some 4 ∧
    Coordinate.from_idx 0 = some ⟨0⟩ ∧
    Coordinate.as_idx ⟨0⟩ = none := by
  refine ⟨by decide, by decide, by decide, by decide⟩

end Scrubble

namespace Scrubble

/-- Claim C5 counterexample: the two AVX2 values built by the public
constructor new_raw from [0x8000, 0, ..., 0] and from all zeroes have
identical real (non-padding) bits, yet the AVX2 equality, which compares
all 256 bits, returns false on them. -/
theorem c5_counterexample :
    specRealBitsEq (Avx2.new_raw (fun i => if i.val = 0 then 32768 else 0)) EMPTY ∧
    Avx2.beq (Avx2.new_raw (fun i => if i.val = 0 then 32768 else 0)) EMPTY = false := by
  refine ⟨by decide, by decide⟩

/-- Claim C5 amended: the scalar equality returns true exactly when the
real (non-padding) bits agree, for all values; the AVX2 equality compares
every bit including the padding, so it coincides with real-bits equality
only on values satisfying the padding invariant. -/
theorem c5_equality (a b : Lanes) :
    (Scalar.beq a b = true ↔ specRealBitsEq a b) ∧
    (Invariant a → Invariant b → (Avx2.beq a b = true ↔ specRealBitsEq a b)) := by
  constructor
  · rw [Scalar.beq, decide_eq_true_eq]
    constructor
    · intro h i hi
      have hc : (⟨i.val, hi⟩ : Fin 15).castSucc = i := Fin.ext rfl
      rw [← hc]
      exact h ⟨i.val, hi⟩
    · intro h i
      exact h i.castSucc i.isLt
  · intro ha hb
    rw [Avx2.beq, decide_eq_true_eq]
    constructor
    · intro h i _
      rw [Nat.xor_eq_zero.mp (h i)]
    · intro h i
      rw [Nat.xor_eq_zero]
      by_cases hi : i.val < 15
      · have := h i hi
        rwa [and_rowmax_of_lt (ha.1 i), and_rowmax_of_lt (hb.1 i)] at this
      · have h15 : i = 15 := Fin.ext (by omega)
        rw [h15, ha.2, hb.2]

/-- Witness for C5 at concrete values: both backends decide equality of
identical invariant-respecting values positively. -/
theorem c5_witness :
    Scalar.beq FULL FULL = true ∧ Avx2.beq EMPTY EMPTY = true :=
  ⟨(c5_equality FULL FULL).1.mpr (fun _ _ => rfl),
   ((c5_equality EMPTY EMPTY).2 (by decide) (by decide)).mpr (fun _ _ => rfl)⟩

/-- Claim C10: the scalar compound assignments write only lanes 0..14 of
the receiver: lane 15 keeps its prior value and every lane below 15 becomes
the lane-wise AND, OR, or XOR of the two operands. -/
theorem c10_assign_frame (a b : Lanes) :
    (Scalar.bitand_assign a b 15 = a 15 ∧
      ∀ i : Fin 15, Scalar.bitand_assign a b i.castSucc = a i.castSucc &&& b i.castSucc) ∧
    (Scalar.bitor_assign a b 15 = a 15 ∧
      ∀ i : Fin 15, Scalar.bitor_assign a b i.castSucc = a i.castSucc ||| b i.castSucc) ∧
    (Scalar.bitxor_assign a b 15 = a 15 ∧
      ∀ i : Fin 15, Scalar.bitxor_assign a b i.castSucc = a i.castSucc ^^^ b i.castSucc) := by
  have h15 : ¬((15 : Fin 16).val < 15) := by decide
  refine ⟨⟨?_, fun i => ?_⟩, ⟨?_, fun i => ?_⟩, ⟨?_, fun i => ?_⟩⟩
  · exact if_neg h15
  · exact if_pos i.isLt
  · exact if_neg h15
  · exact if_pos i.isLt
  · exact if_neg h15
  · exact if_pos i.isLt

/-- Witness for C10 at the full and empty boards and lane 3. -/
theorem c10_witness :
    Scalar.bitand_assign FULL EMPTY 15 = FULL 15 ∧
    Scalar.bitand_assign FULL EMPTY (Fin.castSucc 3) =
      FULL (Fin.castSucc 3) &&& EMPTY (Fin.castSucc 3) ∧
    Scalar.bitxor_assign FULL EMPTY 15 = FULL 15 :=
  ⟨(c10_assign_frame FULL EMPTY).1.1,
   (c10_assign_frame FULL EMPTY).1.2 3,
   (c10_assign_frame FULL EMPTY).2.2.1⟩

end Scrubble

namespace Scrubble

/-! Closed forms for the AVX2 shifts and their single-step iterates. -/

lemma Avx2.right_closed (b : Lanes) (n : ℕ) :
    Avx2.right b n = fun i => if i.val < 15 then b i * 2 ^ n % 32768 else 0 := by
  funext i
  simp only [Avx2.right, FULL]
  by_cases h : i.val < 15
  · simp only [h, if_true]
    rw [Nat.shiftLeft_eq, and_rowmax_eq_mod,
      Nat.mod_mod_of_dvd _ (by norm_num : (32768 : ℕ) ∣ 65536)]
  · simp only [h, if_false]
    exact Nat.and_zero _

lemma Avx2.right_iter (b : Lanes) (hb : Invariant b) (n : ℕ) :
    (fun x => Avx2.right x 1)^[n] b = fun i => if i.val < 15 then b i * 2 ^ n % 32768 else 0 := by
  induction n with
  | zero =>
    funext i
    simp only [Function.iterate_zero_apply, pow_zero, mul_one]
    by_cases h : i.val < 15
    · rw [if_pos h, Nat.mod_eq_of_lt (hb.1 i)]
    · rw [if_neg h]
      have h15 : i = 15 := Fin.ext (by omega)
      rw [h15, hb.2]
  | succ n ih =>
    rw [Function.iterate_succ_apply', ih, Avx2.right_closed]
    funext i
    by_cases h : i.val < 15
    · simp only [h, if_true, pow_one]
      rw [Nat.mod_mul_mod, pow_succ, mul_assoc]
    · simp only [h, if_false]

lemma Avx2.sra16_of_lt {v : ℕ} (h : v < 32768) (n : ℕ) : Avx2.sra16 v n = v >>> n := by
  have hs : ¬ 32768 ≤ v := by omega
  rw [Avx2.sra16]
  by_cases hn : 16 ≤ n
  · rw [if_pos hn, if_neg hs, Nat.shiftRight_eq_div_pow]
    symm
    apply Nat.div_eq_of_lt
    calc v < 32768 := h
      _ ≤ 2 ^ n := by
        rw [show (32768 : ℕ) = 2 ^ 15 by norm_num]
        exact Nat.pow_le_pow_right (by norm_num) (by omega)
  · rw [if_neg hn, if_neg hs, Nat.or_zero]

lemma Avx2.left_closed (b : Lanes) (hb : ∀ i : Fin 16, b i < 32768) (n : ℕ) :
    Avx2.left b n = fun i => b i / 2 ^ n := by
  funext i
  simp only [Avx2.left]
  rw [Avx2.sra16_of_lt (hb i), Nat.shiftRight_eq_div_pow]

lemma Avx2.left_iter (b : Lanes) (hb : ∀ i : Fin 16, b i < 32768) (n : ℕ) :
    (fun x => Avx2.left x 1)^[n] b = fun i => b i / 2 ^ n := by
  induction n with
  | zero =>
    funext i
    simp
  | succ n ih =>
    rw [Function.iterate_succ_apply', ih]
    funext i
    simp only [Avx2.left]
    have hlt : b i / 2 ^ n < 32768 := lt_of_le_of_lt (Nat.div_le_self _ _) (hb i)
    rw [Avx2.sra16_of_lt hlt, Nat.shiftRight_eq_div_pow, Nat.div_div_eq_div_mul]
    norm_num [pow_succ]

lemma Avx2.upFn_closed (b : Lanes) (n : ℕ) :
    Avx2.upFn b n = fun i =>
      if i.val = 15 ∨ i.val < n then 0
      else b ⟨i.val - n, Nat.lt_of_le_of_lt (Nat.sub_le _ _) i.isLt⟩ := by
  funext i
  simp only [Avx2.upFn]
  by_cases h : i.val = 15 ∨ i.val < n
  · rw [if_pos h, if_pos h]
  · rw [if_neg h, if_neg h]
    congr 1
    refine Fin.ext ?_
    simp only
    omega

lemma Avx2.upFn_zero (b : Lanes) (h15 : b 15 = 0) : Avx2.upFn b 0 = b := by
  rw [Avx2.upFn_closed]
  funext i
  by_cases h : i.val = 15 ∨ i.val < 0
  · rw [if_pos h]
    have hi : i = 15 := Fin.ext (by omega)
    rw [hi, h15]
  · rw [if_neg h]
    exact congrArg b (Fin.ext (by simp only; omega))

lemma Avx2.upFn_succ (b : Lanes) (n : ℕ) :
    Avx2.upFn b (n + 1) = Avx2.upFn (Avx2.upFn b n) 1 := by
  rw [Avx2.upFn_closed b (n + 1), Avx2.upFn_closed (Avx2.upFn b n) 1]
  funext i
  by_cases h1 : i.val = 15 ∨ i.val < 1
  · rw [if_pos h1, if_pos (by omega)]
  · rw [if_neg h1, Avx2.upFn_closed b n]
    simp only
    by_cases h2 : i.val < n + 1
    · rw [if_pos (Or.inr (by omega)), if_pos (by omega)]
    · rw [if_neg (by omega), if_neg (by omega)]
      congr 1
      exact Fin.ext (by simp only; omega)

lemma Avx2.upFn_iter (b : Lanes) (h15 : b 15 = 0) (n : ℕ) :
    (fun x => Avx2.upFn x 1)^[n] b = Avx2.upFn b n := by
  induction n with
  | zero => exact (Avx2.upFn_zero b h15).symm
  | succ n ih => rw [Function.iterate_succ_apply', ih, ← Avx2.upFn_succ]

lemma Avx2.downFn_closed (b : Lanes) (n : ℕ) :
    Avx2.downFn b n = fun i =>
      if h : 15 - n ≤ i.val then 0 else b ⟨i.val + n, by omega⟩ := by
  funext i
  simp only [Avx2.downFn]
  by_cases h : 15 - n ≤ i.val
  · rw [if_pos h, dif_pos h]
  · rw [if_neg h, dif_neg h]
    congr 1
    refine Fin.ext ?_
    simp only
    omega

lemma Avx2.downFn_zero (b : Lanes) (h15 : b 15 = 0) : Avx2.downFn b 0 = b := by
  rw [Avx2.downFn_closed]
  funext i
  by_cases h : 15 - 0 ≤ i.val
  · rw [dif_pos h]
    have hi : i = 15 := Fin.ext (by omega)
    rw [hi, h15]
  · rw [dif_neg h]
    exact congrArg b (Fin.ext (by simp only; omega))

lemma Avx2.downFn_succ (b : Lanes) (n : ℕ) :
    Avx2.downFn b (n + 1) = Avx2.downFn (Avx2.downFn b n) 1 := by
  rw [Avx2.downFn_closed b (n + 1), Avx2.downFn_closed (Avx2.downFn b n) 1]
  funext i
  by_cases h1 : 15 - 1 ≤ i.val
  · rw [dif_pos h1, dif_pos (by omega)]
  · rw [dif_neg h1, Avx2.downFn_closed b n]
    simp only
    by_cases h2 : 15 - (n + 1) ≤ i.val
    · rw [dif_pos h2, dif_pos (show 15 - n ≤ i.val + 1 by omega)]
    · rw [dif_neg h2, dif_neg (show ¬(15 - n ≤ i.val + 1) by omega)]
      congr 1
      exact Fin.ext (by simp only; omega)

lemma Avx2.downFn_iter (b : Lanes) (h15 : b 15 = 0) (n : ℕ) :
    (fun x => Avx2.downFn x 1)^[n] b = Avx2.downFn b n := by
  induction n with
  | zero => exact (Avx2.downFn_zero b h15).symm
  | succ n ih => rw [Function.iterate_succ_apply', ih, ← Avx2.downFn_succ]

end Scrubble

namespace Scrubble

/-- Claim C6: shift decomposition in the AVX2 backend: for every board
satisfying the padding invariant of the data model and every shift amount
below 15, each parameterized shift equals the n-fold iteration of the
corresponding single-step shift.  For up and down the single step is its
panic-free lane transformation upFn and downFn: by definition the Option
operation satisfies up x 1 = some (upFn x 1) and down x 1 = some
(downFn x 1), so iterating the lane transformation is the fold of the
single-step operation. -/
theorem c6_shift_decomposition (b : Lanes) (n : ℕ) (hb : Invariant b) (hn : n < 15) :
    Avx2.right b n = (fun x => Avx2.right x 1)^[n] b ∧
    Avx2.left b n = (fun x => Avx2.left x 1)^[n] b ∧
    Avx2.up b n = some ((fun x => Avx2.upFn x 1)^[n] b) ∧
    Avx2.down b n = some ((fun x => Avx2.downFn x 1)^[n] b) := by
  refine ⟨?_, ?_, ?_, ?_⟩
  · rw [Avx2.right_closed, Avx2.right_iter b hb]
  · rw [Avx2.left_closed b hb.1, Avx2.left_iter b hb.1]
  · simp only [Avx2.up]
    rw [if_pos (by omega), Avx2.upFn_iter b hb.2]
  · simp only [Avx2.down]
    rw [if_pos (by omega), Avx2.downFn_iter b hb.2]

/-- Witness for C6 at the full board and shift amount 3. -/
theorem c6_witness :
    Avx2.right FULL 3 = (fun x => Avx2.right x 1)^[3] FULL ∧
    Avx2.left FULL 3 = (fun x => Avx2.left x 1)^[3] FULL ∧
    Avx2.up FULL 3 = some ((fun x => Avx2.upFn x 1)^[3] FULL) ∧
    Avx2.down FULL 3 = some ((fun x => Avx2.downFn x 1)^[3] FULL) :=
  c6_shift_decomposition FULL 3 (by decide) (by decide)

/-- Claim C7 counterexample: shifting the full board down by 16 does not
yield the empty board; the AVX2 down panics (modelled as none) because its
zeroing loop computes the index 14 - 15 on a usize. -/
theorem c7_counterexample :
    Avx2.down FULL 16 = none ∧ Avx2.down FULL 16 ≠ some EMPTY := by
  constructor
  · simp [Avx2.down]
  · simp [Avx2.down]

/-- Claim C7 amended: for every board satisfying the padding invariant and
every shift amount of at least 15, right and left yield the empty board;
up yields the empty board for amounts 15 and 16 but panics beyond; down
yields the empty board at 15 and panics for every amount of at least 16. -/
theorem c7_saturation (b : Lanes) (n : ℕ) (hb : Invariant b) (hn : 15 ≤ n) :
    Avx2.right b n = EMPTY ∧
    Avx2.left b n = EMPTY ∧
    (n ≤ 16 → Avx2.up b n = some EMPTY) ∧
    (17 ≤ n → Avx2.up b n = none) ∧
    (n = 15 → Avx2.down b n = some EMPTY) ∧
    (16 ≤ n → Avx2.down b n = none) := by
  refine ⟨?_, ?_, fun h16 => ?_, fun h17 => ?_, fun h15e => ?_, fun h16e => ?_⟩
  · rw [Avx2.right_closed]
    funext i
    show (if i.val < 15 then b i * 2 ^ n % 32768 else 0) = 0
    by_cases h : i.val < 15
    · rw [if_pos h]
      have hp : 2 ^ n = 2 ^ (n - 15) * 32768 := by
        rw [show (32768 : ℕ) = 2 ^ 15 by norm_num, ← pow_add]
        congr 1
        omega
      rw [hp, ← mul_assoc]
      exact Nat.mul_mod_left _ _
    · rw [if_neg h]
  · rw [Avx2.left_closed b hb.1]
    funext i
    show b i / 2 ^ n = 0
    apply Nat.div_eq_of_lt
    calc b i < 32768 := hb.1 i
      _ ≤ 2 ^ n := by
        rw [show (32768 : ℕ) = 2 ^ 15 by norm_num]
        exact Nat.pow_le_pow_right (by norm_num) hn
  · simp only [Avx2.up]
    rw [if_pos h16]
    congr 1
    funext i
    simp only [Avx2.upFn]
    rw [if_pos (by omega)]
    exact rfl
  · simp only [Avx2.up]
    rw [if_neg (by omega)]
  · subst h15e
    simp only [Avx2.down]
    rw [if_pos (by omega)]
    congr 1
    funext i
    simp only [Avx2.downFn]
    rw [if_pos (by omega)]
    exact rfl
  · simp only [Avx2.down]
    rw [if_neg (by omega)]

/-- Witness for C7 at the full board and shift amount 16. -/
theorem c7_witness :
    Avx2.right FULL 16 = EMPTY ∧
    Avx2.left FULL 16 = EMPTY ∧
    Avx2.up FULL 16 = some EMPTY ∧
    Avx2.down FULL 16 = none :=
  ⟨(c7_saturation FULL 16 (by decide) (by decide)).1,
   (c7_saturation FULL 16 (by decide) (by decide)).2.1,
   (c7_saturation FULL 16 (by decide) (by decide)).2.2.1 (by omega),
   (c7_saturation FULL 16 (by decide) (by decide)).2.2.2.2.2 (by omega)⟩

end Scrubble

namespace Scrubble

lemma countOnes16_of_lt {v : ℕ} (h : v < 32768) :
    countOnes16 v = (List.range 15).countP (fun j => v.testBit j) := by
  have hb : v.testBit 15 = false :=
    Nat.testBit_lt_two_pow (by rw [show (2 : ℕ) ^ 15 = 32768 by norm_num]; exact h)
  rw [countOnes16, List.range_succ, List.countP_append]
  simp [hb]

lemma foldl_add_le {α : Type} (g h : α → ℕ) (l : List α)
    (H : ∀ x ∈ l, g x ≤ h x) :
    ∀ a b : ℕ, a ≤ b →
      l.foldl (fun acc x => acc + g x) a ≤ l.foldl (fun acc x => acc + h x) b := by
  induction l with
  | nil =>
    intro a b hab
    simpa using hab
  | cons x xs ih =>
    intro a b hab
    simp only [List.foldl_cons]
    exact ih (fun y hy => H y (List.mem_cons_of_mem x hy)) _ _
      (Nat.add_le_add hab (H x (List.mem_cons_self x xs)))

/-- Claim C9: for every value satisfying the padding invariant, count_ones
(the sum of per-lane population counts, the identical computation in both
backends) equals the number of set cells and is at most 225; the full board
counts 225 and the empty board 0. -/
theorem c9_count_ones (b : Lanes) (hb : Invariant b) :
    count_ones b = setCellCount b ∧
    count_ones b ≤ 225 ∧
    count_ones FULL = 225 ∧
    count_ones EMPTY = 0 := by
  have heq : count_ones b = setCellCount b := by
    rw [count_ones, setCellCount]
    apply List.foldl_ext
    intro acc i _
    by_cases h : i.val < 15
    · rw [if_pos h, countOnes16_of_lt (hb.1 i)]
    · rw [if_neg h]
      have hi : i = 15 := Fin.ext (by omega)
      rw [hi, hb.2]
      norm_num [countOnes16]
  refine ⟨heq, ?_, by decide, by decide⟩
  have hbound : ∀ x ∈ List.finRange 16,
      (fun i : Fin 16 =>
        if i.val < 15 then (List.range 15).countP (fun j => (b i).testBit j) else 0) x ≤
      (fun i : Fin 16 => if i.val < 15 then 15 else 0) x := by
    intro x _
    simp only
    by_cases h : x.val < 15
    · rw [if_pos h, if_pos h]
      calc (List.range 15).countP (fun j => (b x).testBit j)
          ≤ (List.range 15).length := List.countP_le_length _
        _ = 15 := List.length_range 15
    · rw [if_neg h, if_neg h]
  have hle := foldl_add_le _ _ (List.finRange 16) hbound 0 0 le_rfl
  have h225 : (List.finRange 16).foldl
      (fun acc i => acc + if i.val < 15 then 15 else 0) 0 = 225 := by decide
  have hfin : (List.finRange 16).foldl
      (fun acc i =>
        acc + if i.val < 15 then (List.range 15).countP (fun j => (b i).testBit j) else 0) 0
      ≤ 225 := by
    refine le_trans ?_ (le_of_eq h225)
    exact hle
  rw [heq, setCellCount]
  exact hfin

/-- Witness for C9 at the full board. -/
theorem c9_witness :
    count_ones FULL = setCellCount FULL ∧
    count_ones FULL ≤ 225 ∧
    count_ones FULL = 225 ∧
    count_ones EMPTY = 0 :=
  c9_count_ones FULL (by decide)

end Scrubble
